import Mathlib

/-!
Verification of the TradeX stock-market bot (src/bot.py).

The price/ledger engine of the bot is embedded shallowly:

* Money and prices are modelled as rationals (the source uses Python floats
  for exact small-scale arithmetic on decimal inputs).
* Timestamps are opaque strings (the source stores `datetime.now().isoformat()`
  strings and never computes with them).
* Python dicts (`users_data`, `stocks_data`, per-user `portfolio`) are
  association lists with lookup on the first matching key; the operations of
  the source keep keys unique, and `alistSet` / `alistRemove` mirror
  `d[k] = v` / `del d[k]`.
* Command handlers (`buy`, `sell`) are translated as functions from the
  pre-state to either a typed error (the handler returns after sending an
  error message, mutating nothing) or the post-state of the account.
-/

namespace TradeX

/-- One entry of a stock's price history: `{"time": ..., "price": ...}`
(src/bot.py line 160). -/
structure HistEntry where
  time : String
  price : ℚ
deriving DecidableEq, Repr

/-- One record of `stocks_data`.  The source stores these as dicts in which
`current_price` and `percent_change` can be absent (reads go through
`.get("current_price", 0)` and `.get("percent_change", 0)`), hence `Option`. -/
structure Stock where
  current_price : Option ℚ
  history : List HistEntry
  percent_change : Option ℚ
deriving DecidableEq, Repr

/-- The `stocks_data` dict: symbol → stock record. -/
abbrev Catalog := List (String × Stock)

/-- Transaction type tag: the `"type"` field, `"buy"` or `"sell"`. -/
inductive TxType where
  | buy
  | sell
deriving DecidableEq, Repr

/-- One entry of a user's transaction log (src/bot.py lines 345-352 and
401-408). -/
structure Transaction where
  type : TxType
  symbol : String
  shares : Int
  price : ℚ
  total : ℚ
  timestamp : String
deriving DecidableEq, Repr

/-- One record of `users_data` (src/bot.py lines 213-217). -/
structure Account where
  balance : ℚ
  portfolio : List (String × Int)
  transactions : List Transaction
deriving DecidableEq, Repr

/-- The `users_data` dict: user id → account record. -/
abbrev Ledger := List (String × Account)

/-- Constant `DEFAULT_STARTING_BALANCE = 10000.0` (src/bot.py line 21). -/
def DEFAULT_STARTING_BALANCE : ℚ := 10000

/-- The account created by the `register` command (src/bot.py lines 213-217). -/
def register_account : Account :=
  { balance := DEFAULT_STARTING_BALANCE, portfolio := [], transactions := [] }

/-- Dict read `d.get(k)` on an association list: first matching key. -/
def alistLookup {β : Type} : List (String × β) → String → Option β
  | [], _ => none
  | (k', v') :: rest, k => if k' = k then some v' else alistLookup rest k

/-- Dict write `d[k] = v`: replace the first matching key in place, or append
the new key at the end (Python dict insertion order). -/
def alistSet {β : Type} : List (String × β) → String → β → List (String × β)
  | [], k, v => [(k, v)]
  | (k', v') :: rest, k, v =>
    if k' = k then (k, v) :: rest else (k', v') :: alistSet rest k v

/-- Dict delete `del d[k]`: drop every pair with the given key. -/
def alistRemove {β : Type} : List (String × β) → String → List (String × β)
  | [], _ => []
  | (k', v') :: rest, k =>
    if k' = k then alistRemove rest k else (k', v') :: alistRemove rest k

/-- The error outcomes of the `buy`/`sell` handlers (each corresponds to an
early `return` after an error message in src/bot.py). -/
inductive TradeError where
  | unknownSymbol
  | invalidQuantity
  | insufficientFunds
  | insufficientShares (owned : Int)
deriving DecidableEq, Repr

/-- The `buy` command body for an already-registered account
(src/bot.py lines 321-353): validate symbol, validate quantity, read the
current price (defaulting to 0 when the record has none), check funds, then
debit the balance, add the shares to the portfolio (creating the key at 0
first when absent) and append the transaction record. -/
def buy (stocks : Catalog) (acct : Account) (symbol : String) (shares : Int)
    (ts : String) : Except TradeError Account :=
  match alistLookup stocks symbol with
  | none => .error .unknownSymbol
  | some st =>
    if shares ≤ 0 then .error .invalidQuantity
    else
      let price := st.current_price.getD 0
      let total_cost := price * (shares : ℚ)
      if acct.balance < total_cost then .error .insufficientFunds
      else
        let portfolio0 :=
          match alistLookup acct.portfolio symbol with
          | none => alistSet acct.portfolio symbol 0
          | some _ => acct.portfolio
        let portfolio1 :=
          alistSet portfolio0 symbol ((alistLookup portfolio0 symbol).getD 0 + shares)
        .ok { balance := acct.balance - total_cost,
              portfolio := portfolio1,
              transactions := acct.transactions ++
                [{ type := TxType.buy, symbol := symbol, shares := shares,
                   price := price, total := total_cost, timestamp := ts }] }

/-- The `sell` command body for an already-registered account
(src/bot.py lines 366-409): validate symbol and quantity, reject when the
symbol is absent from the portfolio or owned in insufficient quantity
(reporting the owned count, 0 when absent), then credit the balance, decrement
the position, delete the key when the count reaches 0 and append the
transaction record. -/
def sell (stocks : Catalog) (acct : Account) (symbol : String) (shares : Int)
    (ts : String) : Except TradeError Account :=
  match alistLookup stocks symbol with
  | none => .error .unknownSymbol
  | some st =>
    if shares ≤ 0 then .error .invalidQuantity
    else if alistLookup acct.portfolio symbol = none ∨
        (alistLookup acct.portfolio symbol).getD 0 < shares then
      .error (.insufficientShares ((alistLookup acct.portfolio symbol).getD 0))
    else
      let price := st.current_price.getD 0
      let total_value := price * (shares : ℚ)
      let portfolio0 :=
        alistSet acct.portfolio symbol
          ((alistLookup acct.portfolio symbol).getD 0 - shares)
      let portfolio1 :=
        if (alistLookup portfolio0 symbol).getD 0 = 0 then
          alistRemove portfolio0 symbol
        else portfolio0
      .ok { balance := acct.balance + total_value,
            portfolio := portfolio1,
            transactions := acct.transactions ++
              [{ type := TxType.sell, symbol := symbol, shares := shares,
                 price := price, total := total_value, timestamp := ts }] }

/-- One account-level command as issued against the bot: a buy or a sell,
together with the catalog state it executes against (the handlers read
`stocks_data` at execution time) and the timestamp recorded. -/
structure TradeOp where
  is_buy : Bool
  stocks : Catalog
  symbol : String
  shares : Int
  ts : String

/-- The outcome of one command against an account. -/
def opResult (acct : Account) (op : TradeOp) : Except TradeError Account :=
  if op.is_buy then buy op.stocks acct op.symbol op.shares op.ts
  else sell op.stocks acct op.symbol op.shares op.ts

/-- Apply one command: a failed command returns before mutating anything, so
the account is unchanged. -/
def applyOp (acct : Account) (op : TradeOp) : Account :=
  match opResult acct op with
  | .ok a => a
  | .error _ => acct

/-- Run a sequence of buy/sell commands against an account. -/
def runOps (acct : Account) (ops : List TradeOp) : Account :=
  ops.foldl applyOp acct

/-- The price a command reads: `stocks_data[symbol].get("current_price", 0)`,
taken as 0 for an untracked symbol (such a command fails without reading). -/
def opPrice (op : TradeOp) : ℚ :=
  match alistLookup op.stocks op.symbol with
  | some st => st.current_price.getD 0
  | none => 0

/-- The account invariant of the spec: non-negative balance, and every
portfolio entry strictly positive. -/
def AccountInv (a : Account) : Prop :=
  0 ≤ a.balance ∧ ∀ p ∈ a.portfolio, 0 < p.2

instance (a : Account) : Decidable (AccountInv a) := by
  unfold AccountInv
  infer_instance

/-- History truncation of `update_stock_prices` (src/bot.py lines 161-163):
`history[-24:]` keeps the most recent 24 entries once the length exceeds 24. -/
def truncateHistory (h : List HistEntry) : List HistEntry :=
  if h.length > 24 then h.drop (h.length - 24) else h

/-- One price refresh of a tracked symbol, as performed by
`update_stock_prices` (src/bot.py lines 155-168): append the new history
entry and truncate, then set the current price and the percent change
computed from the prior price (`.get("current_price", price)`, so a record
with no prior price reads the new price back and the change is 0). -/
def applyRefresh (st : Stock) (ts : String) (price : ℚ) : Stock :=
  let history1 := truncateHistory (st.history ++ [{ time := ts, price := price }])
  let old_price := st.current_price.getD price
  { current_price := some price,
    history := history1,
    percent_change :=
      some (if 0 < old_price then (price - old_price) / old_price * 100 else 0) }

/-- The admin `add_stock` command with an explicit price
(src/bot.py lines 267-271): overwrite the record with the given price, a
singleton history and `percent_change` reset to 0. -/
def add_stock (stocks : Catalog) (symbol : String) (price : ℚ) (ts : String) :
    Catalog :=
  alistSet stocks symbol
    { current_price := some price,
      history := [{ time := ts, price := price }],
      percent_change := some 0 }

/-- Iterated refreshes of one stock; the `i`-th update carries
timestamp `toString i` and price `i`. -/
def refreshTimes (st : Stock) : Nat → Stock
  | 0 => st
  | n + 1 => applyRefresh (refreshTimes st n) (toString (n + 1)) ((n : ℚ) + 1)

/-- A freshly tracked record with no history yet (the refresh loop creates
`history = []` when the key is absent). -/
def freshStock : Stock :=
  { current_price := none, history := [], percent_change := none }

/-- Python `round` at a half-even tie-breaking integer grain. -/
def pythonRoundInt (y : ℚ) : Int :=
  let f := ⌊y⌋
  let r := y - (f : ℚ)
  if r < 1 / 2 then f
  else if 1 / 2 < r then f + 1
  else if f % 2 = 0 then f else f + 1

/-- Python `round(x, 2)`. -/
def round2 (x : ℚ) : ℚ := (pythonRoundInt (x * 100) : ℚ) / 100

/-- The perturbation step of `generate_mock_price` for an already-tracked
symbol (src/bot.py lines 107-110): `round(current_price * (1 + change_percent), 2)`
with `change_percent` drawn from `[-0.025, 0.025]`. -/
def mock_next (current_price change_percent : ℚ) : ℚ :=
  round2 (current_price * (1 + change_percent))

/-- The first-use base price of `generate_mock_price`
(src/bot.py line 101): `hash(symbol) % 1000`. -/
def mock_base (h : Int) : Int := h % 1000

/-- The JSON values `json.dump` / `json.load` exchange with the data files.
Python serializes `int` and `float` distinctly, so share counts are carried
as `int` values and prices as `num` values. -/
inductive Json where
  | str (s : String)
  | num (q : ℚ)
  | int (n : Int)
  | arr (l : List Json)
  | obj (fields : List (String × Json))

/-- On-disk form of one history entry. -/
def encodeHistEntry (e : HistEntry) : Json :=
  .obj [("time", .str e.time), ("price", .num e.price)]

/-- On-disk form of one transaction record. -/
def encodeTx (t : Transaction) : Json :=
  .obj [("type", .str (match t.type with | .buy => "buy" | .sell => "sell")),
        ("symbol", .str t.symbol), ("shares", .int t.shares),
        ("price", .num t.price), ("total", .num t.total),
        ("timestamp", .str t.timestamp)]

/-- On-disk form of one stock record: the dict is dumped as-is, so the
optional keys are simply absent when the record lacks them. -/
def encodeStock (st : Stock) : Json :=
  .obj ((match st.current_price with
         | some p => [("current_price", Json.num p)]
         | none => []) ++
        [("history", Json.arr (st.history.map encodeHistEntry))] ++
        (match st.percent_change with
         | some p => [("percent_change", Json.num p)]
         | none => []))

/-- On-disk form of one account record. -/
def encodeAccount (a : Account) : Json :=
  .obj [("balance", .num a.balance),
        ("portfolio", .obj (a.portfolio.map (fun p => (p.1, Json.int p.2)))),
        ("transactions", .arr (a.transactions.map encodeTx))]

/-- The `stocks_data` dict as dumped to its file. -/
def encodeCatalog (c : Catalog) : Json :=
  .obj (c.map (fun p => (p.1, encodeStock p.2)))

/-- The `users_data` dict as dumped to its file. -/
def encodeLedger (l : Ledger) : Json :=
  .obj (l.map (fun p => (p.1, encodeAccount p.2)))

/-- Parse one history entry back. -/
def decodeHistEntry : Json → Option HistEntry
  | .obj [("time", .str t), ("price", .num p)] => some { time := t, price := p }
  | _ => none

/-- Parse a history array back. -/
def decodeHistList : List Json → Option (List HistEntry)
  | [] => some []
  | j :: rest =>
    match decodeHistEntry j, decodeHistList rest with
    | some e, some es => some (e :: es)
    | _, _ => none

/-- Parse one transaction record back. -/
def decodeTx : Json → Option Transaction
  | .obj [("type", .str ty), ("symbol", .str s), ("shares", .int n),
          ("price", .num p), ("total", .num tot), ("timestamp", .str ts)] =>
    if ty = "buy" then
      some { type := .buy, symbol := s, shares := n, price := p, total := tot,
             timestamp := ts }
    else if ty = "sell" then
      some { type := .sell, symbol := s, shares := n, price := p, total := tot,
             timestamp := ts }
    else none
  | _ => none

/-- Parse a transaction array back. -/
def decodeTxList : List Json → Option (List Transaction)
  | [] => some []
  | j :: rest =>
    match decodeTx j, decodeTxList rest with
    | some t, some ts => some (t :: ts)
    | _, _ => none

/-- Parse an optional price field out of a stock object. -/
def decodeOptPrice (fields : List (String × Json)) (key : String) :
    Option (Option ℚ) :=
  match alistLookup fields key with
  | none => some none
  | some (.num q) => some (some q)
  | some _ => none

/-- Parse one stock record back. -/
def decodeStock : Json → Option Stock
  | .obj fields =>
    match decodeOptPrice fields "current_price",
        (match alistLookup fields "history" with
         | some (.arr l) => decodeHistList l
         | _ => none),
        decodeOptPrice fields "percent_change" with
    | some cp, some h, some pc =>
      some { current_price := cp, history := h, percent_change := pc }
    | _, _, _ => none
  | _ => none

/-- Parse a portfolio object back. -/
def decodePortfolioList : List (String × Json) → Option (List (String × Int))
  | [] => some []
  | (k, .int n) :: rest =>
    match decodePortfolioList rest with
    | some ps => some ((k, n) :: ps)
    | none => none
  | _ => none

/-- Parse one account record back. -/
def decodeAccount : Json → Option Account
  | .obj [("balance", .num b), ("portfolio", .obj ps), ("transactions", .arr ts)] =>
    match decodePortfolioList ps, decodeTxList ts with
    | some ps', some ts' =>
      some { balance := b, portfolio := ps', transactions := ts' }
    | _, _ => none
  | _ => none

/-- Parse the stocks file back. -/
def decodeStockList : List (String × Json) → Option Catalog
  | [] => some []
  | (k, j) :: rest =>
    match decodeStock j, decodeStockList rest with
    | some s, some ss => some ((k, s) :: ss)
    | _, _ => none

/-- Parse the stocks file back from its JSON root. -/
def decodeCatalog : Json → Option Catalog
  | .obj fields => decodeStockList fields
  | _ => none

/-- Parse the users file back. -/
def decodeAccountList : List (String × Json) → Option Ledger
  | [] => some []
  | (k, j) :: rest =>
    match decodeAccount j, decodeAccountList rest with
    | some a, some as_ => some ((k, a) :: as_)
    | _, _ => none

/-- Parse the users file back from its JSON root. -/
def decodeLedger : Json → Option Ledger
  | .obj fields => decodeAccountList fields
  | _ => none

/-- The two data files written by `save_data` (src/bot.py lines 60-67). -/
structure SavedFiles where
  users_json : Json
  stocks_json : Json

/-- Function `save_data` (src/bot.py lines 60-67): dump the two dicts
to their files. -/
def save_data (l : Ledger) (c : Catalog) : SavedFiles :=
  { users_json := encodeLedger l, stocks_json := encodeCatalog c }

/-- Function `load_data` (src/bot.py lines 39-58): parse each file, falling back to an
empty dict when a file is missing or unreadable. -/
def load_data (fs : SavedFiles) : Ledger × Catalog :=
  ((decodeLedger fs.users_json).getD [], (decodeCatalog fs.stocks_json).getD [])

/-- The durable state: the contents of the two data files, `none` when a file
does not exist. -/
structure FileStore where
  users_file : Option Json
  stocks_file : Option Json

/-- Execution of `save_data` against a file system in which each of the two
sequential writes may fail; `w1` / `w2` tell whether the users / stocks write
succeeds.  The function body has no exception handling, so the Bool result
records whether an exception escapes to the caller: the users file is written
first, and a failure of the stocks write leaves the users file already
holding the new state. -/
def save_data_run (l : Ledger) (c : Catalog) (fs : FileStore) (w1 w2 : Bool) :
    FileStore × Bool :=
  if w1 then
    let fs1 : FileStore :=
      { users_file := some (encodeLedger l), stocks_file := fs.stocks_file }
    if w2 then
      ({ users_file := fs1.users_file, stocks_file := some (encodeCatalog c) },
       false)
    else (fs1, true)
  else (fs, true)

/-- The `buy` command handler at the ledger level: mutate `users_data` in
memory, then call `save_data` (src/bot.py lines 336-355).  The in-memory
mutation precedes the save, so a save failure cannot undo it. -/
def buy_then_save (stocks : Catalog) (ledger : Ledger) (uid symbol : String)
    (shares : Int) (ts : String) (fs : FileStore) (w1 w2 : Bool) :
    Ledger × FileStore × Bool :=
  match alistLookup ledger uid with
  | none => (ledger, fs, false)
  | some acct =>
    match buy stocks acct symbol shares ts with
    | .error _ => (ledger, fs, false)
    | .ok a' =>
      let ledger1 := alistSet ledger uid a'
      let run := save_data_run ledger1 stocks fs w1 w2
      (ledger1, run.1, run.2)

/- Association-list lemmas. -/

theorem alistLookup_alistSet_self {β : Type} (l : List (String × β)) (k : String)
    (v : β) : alistLookup (alistSet l k v) k = some v := by
  induction l with
  | nil => simp [alistSet, alistLookup]
  | cons p rest ih =>
    obtain ⟨k', v'⟩ := p
    by_cases h : k' = k
    · simp [alistSet, alistLookup, h]
    · simp [alistSet, alistLookup, h, ih]

theorem alistSet_of_lookup_none {β : Type} {l : List (String × β)} {k : String}
    (h : alistLookup l k = none) (v : β) : alistSet l k v = l ++ [(k, v)] := by
  induction l with
  | nil => simp [alistSet]
  | cons p rest ih =>
    obtain ⟨k', v'⟩ := p
    by_cases hk : k' = k
    · simp [alistLookup, hk] at h
    · simp [alistLookup, hk] at h
      simp [alistSet, hk, ih h]

theorem alistSet_append_single_of_lookup_none {β : Type} {l : List (String × β)}
    {k : String} (h : alistLookup l k = none) (a v : β) :
    alistSet (l ++ [(k, a)]) k v = l ++ [(k, v)] := by
  induction l with
  | nil => simp [alistSet]
  | cons p rest ih =>
    obtain ⟨k', v'⟩ := p
    by_cases hk : k' = k
    · simp [alistLookup, hk] at h
    · simp [alistLookup, hk] at h
      simp [alistSet, hk, ih h]

theorem alistLookup_append_of_lookup_none {β : Type} {l : List (String × β)}
    {k : String} (h : alistLookup l k = none) (m : List (String × β)) :
    alistLookup (l ++ m) k = alistLookup m k := by
  induction l with
  | nil => simp
  | cons p rest ih =>
    obtain ⟨k', v'⟩ := p
    by_cases hk : k' = k
    · simp [alistLookup, hk] at h
    · simp [alistLookup, hk] at h
      simp [alistLookup, hk, ih h]

theorem mem_alistSet {β : Type} {l : List (String × β)} {k : String} {v : β}
    {p : String × β} (h : p ∈ alistSet l k v) : p = (k, v) ∨ p ∈ l := by
  induction l with
  | nil => simpa [alistSet] using h
  | cons q rest ih =>
    obtain ⟨k', v'⟩ := q
    by_cases hk : k' = k
    · simp [alistSet, hk] at h
      rcases h with h | h
      · exact Or.inl h
      · exact Or.inr (List.mem_cons_of_mem _ h)
    · simp [alistSet, hk] at h
      rcases h with h | h
      · exact Or.inr (by simp [h])
      · rcases ih h with h' | h'
        · exact Or.inl h'
        · exact Or.inr (List.mem_cons_of_mem _ h')

theorem mem_alistRemove {β : Type} {l : List (String × β)} {k : String}
    {p : String × β} (h : p ∈ alistRemove l k) : p ∈ l ∧ p.1 ≠ k := by
  induction l with
  | nil => simp [alistRemove] at h
  | cons q rest ih =>
    obtain ⟨k', v'⟩ := q
    by_cases hk : k' = k
    · simp [alistRemove, hk] at h
      rcases ih h with ⟨h1, h2⟩
      exact ⟨List.mem_cons_of_mem _ h1, h2⟩
    · simp [alistRemove, hk] at h
      rcases h with h | h
      · exact ⟨by simp [h], by simp [h, hk]⟩
      · rcases ih h with ⟨h1, h2⟩
        exact ⟨List.mem_cons_of_mem _ h1, h2⟩

/-- What a successful `buy` does, under its success preconditions. -/
theorem buy_ok_spec (stocks : Catalog) (acct : Account) (symbol ts : String)
    (shares : Int) (st : Stock)
    (hsym : alistLookup stocks symbol = some st)
    (hsh : 1 ≤ shares)
    (hbal : st.current_price.getD 0 * (shares : ℚ) ≤ acct.balance) :
    (buy stocks acct symbol shares ts).map Account.balance =
      .ok (acct.balance - st.current_price.getD 0 * (shares : ℚ)) ∧
    (buy stocks acct symbol shares ts).map (fun a => alistLookup a.portfolio symbol) =
      .ok (some ((alistLookup acct.portfolio symbol).getD 0 + shares)) ∧
    (buy stocks acct symbol shares ts).map Account.transactions =
      .ok (acct.transactions ++
        [{ type := TxType.buy, symbol := symbol, shares := shares,
           price := st.current_price.getD 0,
           total := st.current_price.getD 0 * (shares : ℚ), timestamp := ts }]) := by
  have hq : ¬ shares ≤ 0 := by omega
  have hb : ¬ acct.balance < st.current_price.getD 0 * (shares : ℚ) := not_lt.mpr hbal
  cases hp : alistLookup acct.portfolio symbol with
  | none =>
    have h0 : alistSet acct.portfolio symbol 0 = acct.portfolio ++ [(symbol, 0)] :=
      alistSet_of_lookup_none hp 0
    have h1 : alistLookup (acct.portfolio ++ [(symbol, (0 : Int))]) symbol = some 0 := by
      rw [alistLookup_append_of_lookup_none hp]
      simp [alistLookup]
    simp only [buy, hsym, hq, if_false, hb, hp, h0, h1]
    refine ⟨rfl, ?_, rfl⟩
    simp [Except.map, alistLookup_alistSet_self]
  | some w =>
    simp only [buy, hsym, hq, if_false, hb, hp]
    refine ⟨rfl, ?_, rfl⟩
    simp [Except.map, alistLookup_alistSet_self, hp]

/-- C1: for a registered account, a tracked symbol and `shares ≥ 1` with
sufficient funds, `buy` succeeds, debits the balance by
`currentPrice × shares`, increments the portfolio entry by `shares`
(creating it when absent) and appends a buy transaction whose total is
exactly the executed `price × shares`. -/
theorem buy_success_C1 (stocks : Catalog) (acct : Account) (symbol ts : String)
    (shares : Int) (st : Stock)
    (hsym : alistLookup stocks symbol = some st)
    (hsh : 1 ≤ shares)
    (hbal : st.current_price.getD 0 * (shares : ℚ) ≤ acct.balance) :
    (buy stocks acct symbol shares ts).map Account.balance =
      .ok (acct.balance - st.current_price.getD 0 * (shares : ℚ)) ∧
    (buy stocks acct symbol shares ts).map (fun a => alistLookup a.portfolio symbol) =
      .ok (some ((alistLookup acct.portfolio symbol).getD 0 + shares)) ∧
    (buy stocks acct symbol shares ts).map Account.transactions =
      .ok (acct.transactions ++
        [{ type := TxType.buy, symbol := symbol, shares := shares,
           price := st.current_price.getD 0,
           total := st.current_price.getD 0 * (shares : ℚ), timestamp := ts }]) :=
  buy_ok_spec stocks acct symbol ts shares st hsym hsh hbal

/-- C1 witness: a concrete successful buy. -/
theorem buy_success_C1_witness :
    (buy [("AAPL", { current_price := some 150, history := [], percent_change := none })]
        { balance := 10000, portfolio := [], transactions := [] } "AAPL" 10 "t").map
        Account.balance = .ok 8500 ∧
    (buy [("AAPL", { current_price := some 150, history := [], percent_change := none })]
        { balance := 10000, portfolio := [], transactions := [] } "AAPL" 10 "t").map
        (fun a => alistLookup a.portfolio "AAPL") = .ok (some 10) ∧
    (buy [("AAPL", { current_price := some 150, history := [], percent_change := none })]
        { balance := 10000, portfolio := [], transactions := [] } "AAPL" 10 "t").map
        Account.transactions =
      .ok [{ type := TxType.buy, symbol := "AAPL", shares := 10, price := 150,
             total := 1500, timestamp := "t" }] := by
  have h := buy_success_C1
    [("AAPL", { current_price := some 150, history := [], percent_change := none })]
    { balance := 10000, portfolio := [], transactions := [] } "AAPL" "t" 10
    { current_price := some 150, history := [], percent_change := none }
    (by simp [alistLookup]) (by omega) (by norm_num)
  refine ⟨?_, ?_, ?_⟩
  · rw [h.1]; norm_num
  · rw [h.2.1]; simp [alistLookup]
  · rw [h.2.2]; norm_num

theorem alistLookup_alistRemove {β : Type} (l : List (String × β)) (k : String) :
    alistLookup (alistRemove l k) k = none := by
  induction l with
  | nil => simp [alistRemove, alistLookup]
  | cons p rest ih =>
    obtain ⟨k', v'⟩ := p
    by_cases hk : k' = k
    · simp [alistRemove, hk, ih]
    · simp [alistRemove, alistLookup, hk, ih]

/-- C3: executing `sell` under its success preconditions. -/
theorem sell_success_C3 (stocks : Catalog) (acct : Account) (symbol ts : String)
    (shares w : Int) (st : Stock)
    (hsym : alistLookup stocks symbol = some st)
    (hsh : 1 ≤ shares)
    (hw : alistLookup acct.portfolio symbol = some w)
    (hws : shares ≤ w) :
    (sell stocks acct symbol shares ts).map Account.balance =
      .ok (acct.balance + (shares : ℚ) * st.current_price.getD 0) ∧
    (sell stocks acct symbol shares ts).map (fun a => alistLookup a.portfolio symbol) =
      .ok (if w = shares then none else some (w - shares)) ∧
    (sell stocks acct symbol shares ts).map Account.transactions =
      .ok (acct.transactions ++
        [{ type := TxType.sell, symbol := symbol, shares := shares,
           price := st.current_price.getD 0,
           total := st.current_price.getD 0 * (shares : ℚ), timestamp := ts }]) := by
  have hq : ¬ shares ≤ 0 := by omega
  have hguard : ¬ (alistLookup acct.portfolio symbol = none ∨
      (alistLookup acct.portfolio symbol).getD 0 < shares) := by
    simp [hw]; omega
  have hset : alistLookup (alistSet acct.portfolio symbol (w - shares)) symbol =
      some (w - shares) := alistLookup_alistSet_self _ _ _
  have hlt : ¬ w < shares := by omega
  simp only [sell, hsym, hq, if_false, if_neg hguard, hw, Option.getD_some]
  refine ⟨by simp [Except.map, hlt, mul_comm], ?_, by simp [Except.map, hlt]⟩
  by_cases hz : w - shares = 0
  · have hwz : w = shares := by omega
    simp [Except.map, hlt, hz, hwz, alistLookup_alistSet_self, alistLookup_alistRemove]
  · have hwz : ¬ w = shares := by omega
    simp [Except.map, hlt, hset, hz, hwz]

/-- C3 witness: a concrete successful sell that empties the position and
deletes the key. -/
theorem sell_success_C3_witness :
    (sell [("AAPL", { current_price := some 165, history := [], percent_change := none })]
        { balance := 8500, portfolio := [("AAPL", 10)], transactions := [] }
        "AAPL" 10 "t").map Account.balance = .ok 10150 ∧
    (sell [("AAPL", { current_price := some 165, history := [], percent_change := none })]
        { balance := 8500, portfolio := [("AAPL", 10)], transactions := [] }
        "AAPL" 10 "t").map (fun a => alistLookup a.portfolio "AAPL") = .ok none ∧
    (sell [("AAPL", { current_price := some 165, history := [], percent_change := none })]
        { balance := 8500, portfolio := [("AAPL", 10)], transactions := [] }
        "AAPL" 10 "t").map Account.transactions =
      .ok [{ type := TxType.sell, symbol := "AAPL", shares := 10, price := 165,
             total := 1650, timestamp := "t" }] := by
  have h := sell_success_C3
    [("AAPL", { current_price := some 165, history := [], percent_change := none })]
    { balance := 8500, portfolio := [("AAPL", 10)], transactions := [] }
    "AAPL" "t" 10 10
    { current_price := some 165, history := [], percent_change := none }
    (by simp [alistLookup]) (by omega) (by simp [alistLookup]) (by omega)
  refine ⟨?_, ?_, ?_⟩
  · rw [h.1]; norm_num
  · rw [h.2.1]; norm_num
  · rw [h.2.2]; norm_num

/-- C4: `buy` with insufficient funds fails with the insufficient-funds error
and leaves the account (balance, portfolio, transaction log) unchanged. -/
theorem buy_insufficient_funds_C4 (stocks : Catalog) (acct : Account)
    (symbol ts : String) (shares : Int) (st : Stock)
    (hsym : alistLookup stocks symbol = some st)
    (hsh : 1 ≤ shares)
    (hbal : acct.balance < st.current_price.getD 0 * (shares : ℚ)) :
    buy stocks acct symbol shares ts = .error .insufficientFunds ∧
    applyOp acct { is_buy := true, stocks := stocks, symbol := symbol,
                   shares := shares, ts := ts } = acct := by
  have hq : ¬ shares ≤ 0 := by omega
  have hbuy : buy stocks acct symbol shares ts = .error .insufficientFunds := by
    simp only [buy, hsym, hq, if_false, if_pos hbal]
  exact ⟨hbuy, by simp [applyOp, opResult, hbuy]⟩

/-- C4 witness: the spec scenario — balance 100.00, 10 shares at 150.00. -/
theorem buy_insufficient_funds_C4_witness :
    buy [("AAPL", { current_price := some 150, history := [], percent_change := none })]
      { balance := 100, portfolio := [], transactions := [] } "AAPL" 10 "t" =
      .error .insufficientFunds ∧
    applyOp { balance := 100, portfolio := [], transactions := [] }
      { is_buy := true,
        stocks := [("AAPL", { current_price := some 150, history := [],
                              percent_change := none })],
        symbol := "AAPL", shares := 10, ts := "t" } =
      { balance := 100, portfolio := [], transactions := [] } :=
  buy_insufficient_funds_C4
    [("AAPL", { current_price := some 150, history := [], percent_change := none })]
    { balance := 100, portfolio := [], transactions := [] } "AAPL" "t" 10
    { current_price := some 150, history := [], percent_change := none }
    (by simp [alistLookup]) (by omega) (by norm_num)

/-- C5: `sell` of more shares than owned (0 when the symbol is absent) fails
with the insufficient-shares error reporting the owned count, and leaves the
account unchanged. -/
theorem sell_insufficient_shares_C5 (stocks : Catalog) (acct : Account)
    (symbol ts : String) (shares : Int) (st : Stock)
    (hsym : alistLookup stocks symbol = some st)
    (hsh : 1 ≤ shares)
    (howned : (alistLookup acct.portfolio symbol).getD 0 < shares) :
    sell stocks acct symbol shares ts =
      .error (.insufficientShares ((alistLookup acct.portfolio symbol).getD 0)) ∧
    applyOp acct { is_buy := false, stocks := stocks, symbol := symbol,
                   shares := shares, ts := ts } = acct := by
  have hq : ¬ shares ≤ 0 := by omega
  have hsell : sell stocks acct symbol shares ts =
      .error (.insufficientShares ((alistLookup acct.portfolio symbol).getD 0)) := by
    simp only [sell, hsym, hq, if_false, if_pos (Or.inr howned)]
  exact ⟨hsell, by simp [applyOp, opResult, hsell]⟩

/-- C5 witness: selling 5 shares while owning 3. -/
theorem sell_insufficient_shares_C5_witness :
    sell [("AAPL", { current_price := some 150, history := [], percent_change := none })]
      { balance := 100, portfolio := [("AAPL", 3)], transactions := [] } "AAPL" 5 "t" =
      .error (.insufficientShares 3) ∧
    applyOp { balance := 100, portfolio := [("AAPL", 3)], transactions := [] }
      { is_buy := false,
        stocks := [("AAPL", { current_price := some 150, history := [],
                              percent_change := none })],
        symbol := "AAPL", shares := 5, ts := "t" } =
      { balance := 100, portfolio := [("AAPL", 3)], transactions := [] } := by
  have h := sell_insufficient_shares_C5
    [("AAPL", { current_price := some 150, history := [], percent_change := none })]
    { balance := 100, portfolio := [("AAPL", 3)], transactions := [] } "AAPL" "t" 5
    { current_price := some 150, history := [], percent_change := none }
    (by simp [alistLookup]) (by omega) (by simp [alistLookup])
  refine ⟨?_, h.2⟩
  have h1 := h.1
  simpa [alistLookup] using h1

theorem alistLookup_some_mem {β : Type} {l : List (String × β)} {k : String}
    {v : β} (h : alistLookup l k = some v) : (k, v) ∈ l := by
  induction l with
  | nil => simp [alistLookup] at h
  | cons p rest ih =>
    obtain ⟨k', v'⟩ := p
    by_cases hk : k' = k
    · simp [alistLookup, hk] at h
      simp [hk, h]
    · simp [alistLookup, hk] at h
      exact List.mem_cons_of_mem _ (ih h)

/-- A successful `buy` preserves the account invariant (no assumption on the
price is needed: the funds check alone keeps the balance non-negative). -/
theorem buy_ok_inv {stocks : Catalog} {acct : Account} {symbol ts : String}
    {shares : Int} {a' : Account} (hinv : AccountInv acct)
    (h : buy stocks acct symbol shares ts = .ok a') : AccountInv a' := by
  cases hsym : alistLookup stocks symbol with
  | none => simp [buy, hsym] at h
  | some st =>
    simp only [buy, hsym] at h
    by_cases hq : shares ≤ 0
    · rw [if_pos hq] at h; exact absurd h (by simp)
    · rw [if_neg hq] at h
      by_cases hb : acct.balance < st.current_price.getD 0 * (shares : ℚ)
      · rw [if_pos hb] at h; exact absurd h (by simp)
      · rw [if_neg hb] at h
        simp only [Except.ok.injEq] at h
        subst h
        cases hpw : alistLookup acct.portfolio symbol with
        | none =>
          have h0 : alistSet acct.portfolio symbol 0 =
              acct.portfolio ++ [(symbol, 0)] := alistSet_of_lookup_none hpw 0
          have h1 : alistLookup (acct.portfolio ++ [(symbol, (0 : Int))]) symbol =
              some 0 := by
            rw [alistLookup_append_of_lookup_none hpw]
            simp [alistLookup]
          refine ⟨?_, ?_⟩
          · simpa using sub_nonneg.mpr (not_lt.mp hb)
          · intro p hp
            obtain ⟨p1, p2⟩ := p
            simp only [hpw, h0, h1] at hp
            rw [alistSet_append_single_of_lookup_none hpw] at hp
            rcases List.mem_append.mp hp with hp | hp
            · exact hinv.2 _ hp
            · simp at hp
              obtain ⟨-, hp2⟩ := hp
              simp only []
              omega
        | some w =>
          refine ⟨?_, ?_⟩
          · simpa using sub_nonneg.mpr (not_lt.mp hb)
          · intro p hp
            simp only [hpw] at hp
            rcases mem_alistSet hp with hp | hp
            · have hwmem : (symbol, w) ∈ acct.portfolio := alistLookup_some_mem hpw
              have hwpos : 0 < w := hinv.2 _ hwmem
              rw [hp]
              simp only [Option.getD_some]
              omega
            · exact hinv.2 p hp

/-- A successful `sell` preserves the account invariant, provided the price
read from the catalog is non-negative (the spec's data model requires
`currentPrice ≥ 0`). -/
theorem sell_ok_inv {stocks : Catalog} {acct : Account} {symbol ts : String}
    {shares : Int} {a' : Account} (hinv : AccountInv acct)
    (hprice : ∀ st, alistLookup stocks symbol = some st →
      0 ≤ st.current_price.getD 0)
    (h : sell stocks acct symbol shares ts = .ok a') : AccountInv a' := by
  cases hsym : alistLookup stocks symbol with
  | none => simp [sell, hsym] at h
  | some st =>
    simp only [sell, hsym] at h
    by_cases hq : shares ≤ 0
    · rw [if_pos hq] at h; exact absurd h (by simp)
    · rw [if_neg hq] at h
      cases hpw : alistLookup acct.portfolio symbol with
      | none =>
        rw [if_pos (Or.inl hpw)] at h
        exact absurd h (by simp)
      | some w =>
        by_cases hg : alistLookup acct.portfolio symbol = none ∨
            (alistLookup acct.portfolio symbol).getD 0 < shares
        · rw [if_pos hg] at h; exact absurd h (by simp)
        · rw [if_neg hg] at h
          simp only [Except.ok.injEq] at h
          subst h
          have hws : shares ≤ w := by
            rcases not_or.mp hg with ⟨-, h2⟩
            rw [hpw] at h2
            simpa using not_lt.mp h2
          have hsq : (0 : ℚ) ≤ (shares : ℚ) := by exact_mod_cast by omega
          have hset : alistLookup (alistSet acct.portfolio symbol (w - shares))
              symbol = some (w - shares) := alistLookup_alistSet_self _ _ _
          refine ⟨?_, ?_⟩
          · exact add_nonneg hinv.1 (mul_nonneg (hprice st hsym) hsq)
          · intro p hp
            simp only [hpw, Option.getD_some, hset] at hp
            by_cases hz : w - shares = 0
            · rw [if_pos hz] at hp
              rcases mem_alistRemove hp with ⟨hp1, hp2⟩
              rcases mem_alistSet hp1 with hp3 | hp3
              · exact absurd (by rw [hp3]) hp2
              · exact hinv.2 p hp3
            · rw [if_neg hz] at hp
              rcases mem_alistSet hp with hp | hp
              · rw [hp]
                simp only []
                omega
              · exact hinv.2 p hp

/-- One command preserves the invariant when the price it reads is
non-negative. -/
theorem applyOp_inv {acct : Account} {op : TradeOp} (hinv : AccountInv acct)
    (hp : 0 ≤ opPrice op) : AccountInv (applyOp acct op) := by
  have hprice : ∀ st, alistLookup op.stocks op.symbol = some st →
      0 ≤ st.current_price.getD 0 := by
    intro st hst
    unfold opPrice at hp
    rwa [hst] at hp
  unfold applyOp opResult
  by_cases hb : op.is_buy
  · rw [if_pos hb]
    cases h : buy op.stocks acct op.symbol op.shares op.ts with
    | ok a => exact buy_ok_inv hinv h
    | error e => exact hinv
  · rw [if_neg hb]
    cases h : sell op.stocks acct op.symbol op.shares op.ts with
    | ok a => exact sell_ok_inv hinv hprice h
    | error e => exact hinv

theorem runOps_inv {ops : List TradeOp} {acct : Account} (hinv : AccountInv acct)
    (hprices : ∀ op ∈ ops, 0 ≤ opPrice op) : AccountInv (runOps acct ops) := by
  induction ops generalizing acct with
  | nil => exact hinv
  | cons op rest ih =>
    have h1 : AccountInv (applyOp acct op) :=
      applyOp_inv hinv (hprices op (List.mem_cons_self op rest))
    exact ih h1 (fun o ho => hprices o (List.mem_cons_of_mem _ ho))

/-- C2: over any sequence of buy/sell commands starting from the freshly
registered account, the balance stays non-negative and every portfolio value
stays strictly positive, provided every price read from the catalog is
non-negative (the spec's data model requires `currentPrice` to be a
non-negative decimal). -/
theorem account_invariant_C2 (ops : List TradeOp)
    (hprices : ∀ op ∈ ops, 0 ≤ opPrice op) :
    AccountInv (runOps register_account ops) := by
  have h0 : AccountInv register_account := by
    constructor
    · norm_num [register_account, DEFAULT_STARTING_BALANCE]
    · intro p hp
      simp [register_account] at hp
  exact runOps_inv h0 hprices

/-- C2 witness: a buy of 3 shares at price 5 followed by a sell of 1 share. -/
theorem account_invariant_C2_witness :
    AccountInv (runOps register_account
      [{ is_buy := true,
         stocks := [("A", { current_price := some 5, history := [],
                            percent_change := none })],
         symbol := "A", shares := 3, ts := "t1" },
       { is_buy := false,
         stocks := [("A", { current_price := some 5, history := [],
                            percent_change := none })],
         symbol := "A", shares := 1, ts := "t2" }]) :=
  account_invariant_C2 _ (by
    intro op hop
    simp only [List.mem_cons, List.not_mem_nil, or_false] at hop
    rcases hop with rfl | rfl <;> decide)

set_option maxRecDepth 4000 in
/-- C6: a refresh appends the new entry at the end and truncates the history
to the most recent 24 entries, so its length never exceeds 24; 30 sequential
refreshes of a fresh symbol leave exactly the 7th through 30th updates
(identified by their recorded timestamps), so the oldest retained entry is
the 7th update. -/
theorem history_bound_C6 :
    (∀ (st : Stock) (ts : String) (price : ℚ),
      (applyRefresh st ts price).history.length ≤ 24 ∧
      (applyRefresh st ts price).history.getLast? =
        some { time := ts, price := price }) ∧
    (refreshTimes freshStock 30).history.length = 24 ∧
    (refreshTimes freshStock 30).history.map HistEntry.time =
      (List.range 24).map (fun i => toString (i + 7)) := by
  refine ⟨?_, by decide, by decide⟩
  intro st ts price
  constructor
  · simp only [applyRefresh, truncateHistory]
    split
    · rw [List.length_drop]
      omega
    · rename_i hlen
      omega
  · simp only [applyRefresh, truncateHistory]
    split
    · rename_i hlen
      have hle : (st.history ++ [({ time := ts, price := price } : HistEntry)]).length - 24 ≤
          st.history.length := by
        simp only [List.length_append, List.length_cons, List.length_nil]
        omega
      rw [List.drop_append_of_le_length hle]
      simp
    · simp

/-- C7: a scheduled refresh computes the percent change from the prior price
when that price is positive and records 0 when there is no prior price or the
prior price is 0; the admin price-set unconditionally resets the percent
change to 0 whatever the catalog held before. -/
theorem percent_change_C7 (st : Stock) (ts : String) (price old_price : ℚ)
    (stocks : Catalog) (symbol : String) :
    (st.current_price = some old_price → 0 < old_price →
      (applyRefresh st ts price).percent_change =
        some ((price - old_price) / old_price * 100)) ∧
    (st.current_price = some 0 →
      (applyRefresh st ts price).percent_change = some 0) ∧
    (st.current_price = none →
      (applyRefresh st ts price).percent_change = some 0) ∧
    alistLookup (add_stock stocks symbol price ts) symbol =
      some { current_price := some price,
             history := [{ time := ts, price := price }],
             percent_change := some 0 } := by
  refine ⟨?_, ?_, ?_, alistLookup_alistSet_self _ _ _⟩
  · intro h hpos
    simp [applyRefresh, h, hpos]
  · intro h
    simp [applyRefresh, h]
  · intro h
    simp only [applyRefresh, h, Option.getD_none]
    by_cases hp : 0 < price
    · simp [hp]
    · simp [hp]

/-- C7 witness: refresh from prior price 2 to 3 gives +50 percent; refresh
with prior price 0 or no prior price gives 0; the admin set of price 3 over a
catalog holding percent change 12 resets it to 0. -/
theorem percent_change_C7_witness :
    (applyRefresh { current_price := some 2, history := [],
                    percent_change := none } "a" 3).percent_change = some 50 ∧
    (applyRefresh { current_price := some 0, history := [],
                    percent_change := none } "a" 3).percent_change = some 0 ∧
    (applyRefresh { current_price := none, history := [],
                    percent_change := none } "a" 3).percent_change = some 0 ∧
    alistLookup (add_stock [("A", { current_price := some 9, history := [],
                                    percent_change := some 12 })] "A" 3 "a") "A" =
      some { current_price := some 3, history := [{ time := "a", price := 3 }],
             percent_change := some 0 } := by
  have hsetup := percent_change_C7
    { current_price := some 2, history := [], percent_change := none } "a" 3 2
    [("A", { current_price := some 9, history := [], percent_change := some 12 })] "A"
  have h1 := hsetup.1 rfl (by norm_num)
  have h2 := (percent_change_C7
    { current_price := some 0, history := [], percent_change := none } "a" 3 0
    [] "A").2.1 rfl
  have h3 := (percent_change_C7
    { current_price := none, history := [], percent_change := none } "a" 3 0
    [] "A").2.2.1 rfl
  refine ⟨?_, h2, h3, hsetup.2.2.2⟩
  rw [h1]
  norm_num

theorem decodeHistEntry_encode (e : HistEntry) :
    decodeHistEntry (encodeHistEntry e) = some e := by
  cases e
  rfl

theorem decodeHistList_encode (l : List HistEntry) :
    decodeHistList (l.map encodeHistEntry) = some l := by
  induction l with
  | nil => rfl
  | cons e rest ih => simp [decodeHistList, decodeHistEntry_encode, ih]

theorem decodeTx_encode (t : Transaction) : decodeTx (encodeTx t) = some t := by
  obtain ⟨ty, s, n, p, tot, ts⟩ := t
  cases ty <;> simp [encodeTx, decodeTx]

theorem decodeTxList_encode (l : List Transaction) :
    decodeTxList (l.map encodeTx) = some l := by
  induction l with
  | nil => rfl
  | cons t rest ih => simp [decodeTxList, decodeTx_encode, ih]

theorem decodeStock_encode (st : Stock) : decodeStock (encodeStock st) = some st := by
  obtain ⟨cp, h, pc⟩ := st
  cases cp <;> cases pc <;>
    simp [encodeStock, decodeStock, decodeOptPrice, alistLookup,
      decodeHistList_encode]

theorem decodePortfolioList_encode (l : List (String × Int)) :
    decodePortfolioList (l.map (fun p => (p.1, Json.int p.2))) = some l := by
  induction l with
  | nil => rfl
  | cons p rest ih =>
    obtain ⟨k, n⟩ := p
    simp [decodePortfolioList, ih]

theorem decodeAccount_encode (a : Account) :
    decodeAccount (encodeAccount a) = some a := by
  obtain ⟨b, ps, ts⟩ := a
  simp [encodeAccount, decodeAccount, decodePortfolioList_encode,
    decodeTxList_encode]

theorem decodeStockList_encode (c : Catalog) :
    decodeStockList (c.map (fun p => (p.1, encodeStock p.2))) = some c := by
  induction c with
  | nil => rfl
  | cons p rest ih =>
    obtain ⟨k, st⟩ := p
    simp [decodeStockList, decodeStock_encode, ih]

theorem decodeAccountList_encode (l : Ledger) :
    decodeAccountList (l.map (fun p => (p.1, encodeAccount p.2))) = some l := by
  induction l with
  | nil => rfl
  | cons p rest ih =>
    obtain ⟨k, a⟩ := p
    simp [decodeAccountList, decodeAccount_encode, ih]

theorem load_data_save_data (l : Ledger) (c : Catalog) :
    load_data (save_data l c) = (l, c) := by
  simp [load_data, save_data, encodeLedger, encodeCatalog, decodeLedger,
    decodeCatalog, decodeAccountList_encode, decodeStockList_encode]

/-- C8: saving the ledger and the catalog and loading the two files back
reproduces the same ledger and catalog; `load_data` is a left inverse of
`save_data`. -/
theorem save_load_roundtrip_C8 (l : Ledger) (c : Catalog) :
    load_data (save_data l c) = (l, c) :=
  load_data_save_data l c

/-- C9 counterexample: `save_data` writes the two files sequentially with no
exception handling, so when the users write succeeds and the stocks write
fails, the exception escapes to the caller (no warning result) and the
durable state is mixed: the users file already holds the new ledger while
the stocks file still holds the prior state (here: no file), which is
neither the new snapshot nor the prior durable state left intact. -/
theorem save_failure_C9_counterexample :
    (save_data_run []
      [("A", { current_price := some 1, history := [], percent_change := none })]
      { users_file := none, stocks_file := none } true false).2 = true ∧
    (save_data_run []
      [("A", { current_price := some 1, history := [], percent_change := none })]
      { users_file := none, stocks_file := none } true false).1.users_file =
      some (encodeLedger []) ∧
    (save_data_run []
      [("A", { current_price := some 1, history := [], percent_change := none })]
      { users_file := none, stocks_file := none } true false).1.stocks_file =
      none ∧
    (none : Option Json) ≠ some (encodeCatalog
      [("A", { current_price := some 1, history := [], percent_change := none })]) :=
  ⟨rfl, rfl, rfl, by simp⟩

/-- C9 amended: `save_data` writes the users file and then the stocks file as
two separate sequential writes with no exception handling.  When both writes
succeed the durable state is the full new snapshot (and reloads to the saved
ledger and catalog); when the stocks write fails the users file holds the new
state while the stocks file keeps the prior state and the exception escapes
to the caller; when the users write fails the durable state is unchanged and
the exception escapes.  The in-memory mutation applied before the save stands
in every case. -/
theorem save_failure_C9_amended (l : Ledger) (c : Catalog) (fs : FileStore)
    (w2 : Bool) (stocks : Catalog) (ledger : Ledger) (uid symbol ts : String)
    (shares : Int) (acct a' : Account)
    (hu : alistLookup ledger uid = some acct)
    (hb : buy stocks acct symbol shares ts = .ok a') :
    save_data_run l c fs true true =
      ({ users_file := some (encodeLedger l),
         stocks_file := some (encodeCatalog c) }, false) ∧
    load_data { users_json := encodeLedger l, stocks_json := encodeCatalog c } =
      (l, c) ∧
    save_data_run l c fs true false =
      ({ users_file := some (encodeLedger l), stocks_file := fs.stocks_file },
       true) ∧
    save_data_run l c fs false w2 = (fs, true) ∧
    (buy_then_save stocks ledger uid symbol shares ts fs true false).1 =
      alistSet ledger uid a' := by
  refine ⟨rfl, load_data_save_data l c, rfl, rfl, ?_⟩
  simp [buy_then_save, hu, hb]

/-- C9 amended witness: a concrete buy of one share at price 0 whose
in-memory result survives a failing save. -/
theorem save_failure_C9_amended_witness :
    save_data_run [] [] { users_file := none, stocks_file := none } true true =
      ({ users_file := some (encodeLedger []),
         stocks_file := some (encodeCatalog []) }, false) ∧
    load_data { users_json := encodeLedger [], stocks_json := encodeCatalog [] } =
      ([], []) ∧
    save_data_run [] [] { users_file := none, stocks_file := none } true false =
      ({ users_file := some (encodeLedger []), stocks_file := none }, true) ∧
    save_data_run [] [] { users_file := none, stocks_file := none } false true =
      ({ users_file := none, stocks_file := none }, true) ∧
    (buy_then_save [("A", { current_price := none, history := [],
                            percent_change := none })]
      [("u", { balance := 100, portfolio := [], transactions := [] })]
      "u" "A" 1 "t" { users_file := none, stocks_file := none } true false).1 =
      alistSet [("u", { balance := 100, portfolio := [], transactions := [] })]
        "u" { balance := 100 - 0 * 1, portfolio := [("A", 1)],
              transactions := [{ type := TxType.buy, symbol := "A", shares := 1,
                                 price := 0, total := 0 * 1,
                                 timestamp := "t" }] } :=
  save_failure_C9_amended [] [] { users_file := none, stocks_file := none }
    true
    [("A", { current_price := none, history := [], percent_change := none })]
    [("u", { balance := 100, portfolio := [], transactions := [] })]
    "u" "A" "t" 1
    { balance := 100, portfolio := [], transactions := [] }
    { balance := 100 - 0 * 1, portfolio := [("A", 1)],
      transactions := [{ type := TxType.buy, symbol := "A", shares := 1,
                         price := 0, total := 0 * 1, timestamp := "t" }] }
    (by simp [alistLookup])
    (by norm_num [buy, alistLookup, alistSet])

/-- C10: when the tracked record's current price is 0 — or absent, which
`buy` reads as 0 — a buy of any positive quantity succeeds at total cost 0:
the balance is unchanged and the position grows by `shares`, i.e. the shares
are acquired for free; moreover the simulated generator keeps a 0 price at 0
(perturbing 0 and rounding yields 0) and its first-use base `hash % 1000` can
itself be 0. -/
theorem zero_price_buy_C10 (stocks : Catalog) (acct : Account)
    (symbol ts : String) (shares : Int) (st : Stock) (d : ℚ)
    (hsym : alistLookup stocks symbol = some st)
    (hzero : st.current_price.getD 0 = 0)
    (hsh : 1 ≤ shares)
    (hbal : 0 ≤ acct.balance) :
    (buy stocks acct symbol shares ts).map Account.balance = .ok acct.balance ∧
    (buy stocks acct symbol shares ts).map (fun a => alistLookup a.portfolio symbol) =
      .ok (some ((alistLookup acct.portfolio symbol).getD 0 + shares)) ∧
    (buy stocks acct symbol shares ts).map Account.transactions =
      .ok (acct.transactions ++
        [{ type := TxType.buy, symbol := symbol, shares := shares, price := 0,
           total := 0, timestamp := ts }]) ∧
    mock_next 0 d = 0 ∧
    mock_base 0 = 0 := by
  have hcost : st.current_price.getD 0 * (shares : ℚ) = 0 := by
    rw [hzero, zero_mul]
  have h := buy_ok_spec stocks acct symbol ts shares st hsym hsh
    (by rw [hcost]; exact hbal)
  rw [hcost] at h
  rw [hzero] at h
  refine ⟨by simpa using h.1, h.2.1, by simpa using h.2.2, ?_, ?_⟩
  · have hz : (0 : ℚ) * (1 + d) = 0 := zero_mul _
    simp only [mock_next, hz, round2]
    norm_num [pythonRoundInt]
  · decide

/-- C10 witness: five shares of a zero-priced stock are acquired for free. -/
theorem zero_price_buy_C10_witness :
    (buy [("Z", { current_price := some 0, history := [], percent_change := none })]
      { balance := 100, portfolio := [], transactions := [] } "Z" 5 "t").map
      Account.balance = .ok 100 ∧
    (buy [("Z", { current_price := some 0, history := [], percent_change := none })]
      { balance := 100, portfolio := [], transactions := [] } "Z" 5 "t").map
      (fun a => alistLookup a.portfolio "Z") = .ok (some 5) ∧
    (buy [("Z", { current_price := some 0, history := [], percent_change := none })]
      { balance := 100, portfolio := [], transactions := [] } "Z" 5 "t").map
      Account.transactions =
      .ok [{ type := TxType.buy, symbol := "Z", shares := 5, price := 0,
             total := 0, timestamp := "t" }] ∧
    mock_next 0 (1 / 40) = 0 ∧
    mock_base 0 = 0 :=
  zero_price_buy_C10
    [("Z", { current_price := some 0, history := [], percent_change := none })]
    { balance := 100, portfolio := [], transactions := [] } "Z" "t" 5
    { current_price := some 0, history := [], percent_change := none } (1 / 40)
    (by simp [alistLookup]) rfl (by omega) (by norm_num)

end TradeX
